import Mathlib

/-!
Shallow embedding of the algorithmic core of `trading_bot_demo.py`:
the indicator engine (`calculate_indicators`), the SMA-crossover branch of
the signal generator (`generate_signals`), the trade simulator
(`simulate_trading`) and the metrics calculator (`calculate_metrics`).

Prices, cash and holdings are modelled as rationals.  The pandas NaN/inf
semantics that the RSI computation relies on (division of nonnegative
floats by zero) is modelled explicitly by the type `FVal`; rolling-window
results that pandas leaves as NaN during warm-up are modelled as
`Option.none` (for the SMA) or `FVal.nan` (for the RSI).  Claims are
stated only on inputs where rational arithmetic and float arithmetic
agree (positive prices, no overflow-sized magnitudes).
-/

/-- Float-like value: a finite rational, plus the IEEE special values
that the RSI pipeline can produce (`gain / loss` with `loss = 0`). -/
inductive FVal where
  | num : ℚ → FVal
  | pinf : FVal
  | ninf : FVal
  | nan : FVal
deriving DecidableEq

/-- IEEE division of two finite values, as numpy performs it inside
`rs = gain / loss`: a nonzero numerator over zero gives a signed
infinity, `0 / 0` gives NaN. -/
def fdiv (a b : ℚ) : FVal :=
  if b ≠ 0 then FVal.num (a / b)
  else if 0 < a then FVal.pinf
  else if a < 0 then FVal.ninf
  else FVal.nan

/-! ## Indicator engine (`calculate_indicators`, lines 49-67) -/

/-- Embeds `df["price"].rolling(window=w).mean()` at index `i`: the mean of the
`w` prices ending at `i`, unavailable (NaN) while `i < w - 1`, while the
index is out of range, or for the degenerate window `w = 0`. -/
def sma (prices : List ℚ) (w : ℕ) (i : ℕ) : Option ℚ :=
  if 1 ≤ w ∧ w ≤ i + 1 ∧ i < prices.length then
    some ((((List.range w).map (fun k => prices.getD (i - k) 0)).sum) / w)
  else none

/-- Embeds `delta = df["price"].diff()` at index `i` (meaningful for
`1 ≤ i < prices.length`; at index 0 the code has NaN, and `gainAt` and
`lossAt` handle that index separately, as `where` does). -/
def deltaAt (prices : List ℚ) (i : ℕ) : ℚ :=
  prices.getD i 0 - prices.getD (i - 1) 0

/-- Embeds `delta.where(delta > 0, 0)` at index `i`: at index 0 the
delta is NaN, the comparison `NaN > 0` is false, and `where` substitutes
the replacement value 0 — so the gain series itself contains no NaN. -/
def gainAt (prices : List ℚ) (i : ℕ) : ℚ :=
  if i = 0 then 0 else max (deltaAt prices i) 0

/-- Embeds `(-delta.where(delta < 0, 0))` at index `i`: index 0 is the
`where`-substituted 0, negated. -/
def lossAt (prices : List ℚ) (i : ℕ) : ℚ :=
  if i = 0 then 0 else max (-(deltaAt prices i)) 0

/-- Embeds `gain.rolling(window=period).mean()` at index `i`: since the
`where` substitution leaves no NaN in the gain series, the rolling mean
is available from index `period - 1` on (i.e. for `period ≤ i + 1`),
the substituted zero at index 0 counting as an ordinary window term. -/
def avg_gain (prices : List ℚ) (period i : ℕ) : Option ℚ :=
  if 1 ≤ period ∧ period ≤ i + 1 ∧ i < prices.length then
    some ((((List.range period).map (fun k => gainAt prices (i - k))).sum) / period)
  else none

/-- Embeds `loss.rolling(window=period).mean()` at index `i`: available
from index `period - 1` on, like `avg_gain`. -/
def avg_loss (prices : List ℚ) (period i : ℕ) : Option ℚ :=
  if 1 ≤ period ∧ period ≤ i + 1 ∧ i < prices.length then
    some ((((List.range period).map (fun k => lossAt prices (i - k))).sum) / period)
  else none

/-- Embeds `RSI = 100 - (100 / (1 + rs))` applied to the float value `rs`.
Since `rs = avg_gain / avg_loss` is nonnegative or a special value, the
finite case never divides by zero. -/
def rsiFromRS : FVal → FVal
  | FVal.num q => FVal.num (100 - 100 / (1 + q))
  | FVal.pinf => FVal.num 100
  | FVal.ninf => FVal.num 100
  | FVal.nan => FVal.nan

/-- Embeds `df["RSI"]` at index `i`: NaN during warm-up, otherwise
`100 - 100/(1 + avg_gain/avg_loss)` under IEEE division. -/
def rsi (prices : List ℚ) (period i : ℕ) : FVal :=
  match avg_gain prices period i, avg_loss prices period i with
  | some g, some l => rsiFromRS (fdiv g l)
  | _, _ => FVal.nan

/-! ## Signal generator, SMA-crossover branch (`generate_signals`, lines 70-74) -/

/-- Pandas comparison `a < b` on possibly-NaN values: false whenever
either side is NaN. -/
def oltB : Option ℚ → Option ℚ → Bool
  | some x, some y => decide (x < y)
  | _, _ => false

/-- Pandas comparison `a ≤ b` on possibly-NaN values: false whenever
either side is NaN. -/
def oleB : Option ℚ → Option ℚ → Bool
  | some x, some y => decide (x ≤ y)
  | _, _ => false

/-- Embeds `series.shift(1)` at index `i`: NaN at index 0, the previous value
otherwise. -/
def shiftSma (prices : List ℚ) (w : ℕ) : ℕ → Option ℚ
  | 0 => none
  | Nat.succ j => sma prices w j

/-- The `strategy == "sma"` branch of `generate_signals`: the buy mask is
`(SMA_short > SMA_long) & (SMA_short.shift(1) <= SMA_long.shift(1))`, the
sell mask is the mirror image; the sell assignment runs second, so it
would win were both masks true at an index (they cannot be). -/
def signal_sma (prices : List ℚ) (sw lw : ℕ) (i : ℕ) : Int :=
  if oltB (sma prices sw i) (sma prices lw i) &&
      oleB (shiftSma prices lw i) (shiftSma prices sw i) then -1
  else if oltB (sma prices lw i) (sma prices sw i) &&
      oleB (shiftSma prices sw i) (shiftSma prices lw i) then 1
  else 0

/-! ## Trade simulator (`simulate_trading`, lines 84-115) -/

/-- The four values of the `type` field of a trade record. -/
inductive TradeType where
  | buy
  | sell
  | stopLoss
  | takeProfit
deriving DecidableEq

/-- One row appended to `trades`: index of the bar, trade type, price,
and the holdings, cash and portfolio value stored with the record. -/
structure Trade where
  date : ℕ
  type : TradeType
  price : ℚ
  holdings : ℚ
  cash : ℚ
  portfolio_value : ℚ
deriving DecidableEq

/-- The simulator's mutable state: `cash`, `holdings`, `entry_price`,
the accumulated `trades` list and the `portfolio_value` column. -/
structure SimState where
  cash : ℚ
  holdings : ℚ
  entry_price : ℚ
  trades : List Trade
  portfolio_values : List ℚ
deriving DecidableEq

/-- One iteration of the `for index, row in df.iterrows()` loop of
`simulate_trading`: compute the pre-trade portfolio value, then run the
`if Signal == 1 and cash > 0` / `elif Signal == -1 and holdings > 0` /
`elif holdings > 0` (stop-loss, then take-profit) chain, and finally
store the pre-trade portfolio value in the `portfolio_value` column. -/
def stepTrade (fee_rate stop_loss take_profit : ℚ) (s : SimState)
    (i : ℕ) (price : ℚ) (signal : Int) : SimState :=
  let portfolio_value := s.cash + s.holdings * price
  let s1 :=
    if signal = 1 ∧ 0 < s.cash then
      let holdings := s.cash / price * (1 - fee_rate)
      { s with
        cash := 0
        holdings := holdings
        entry_price := price
        trades := s.trades ++ [⟨i, TradeType.buy, price, holdings, 0, portfolio_value⟩] }
    else if signal = -1 ∧ 0 < s.holdings then
      let cash := s.holdings * price * (1 - fee_rate)
      { s with
        cash := cash
        holdings := 0
        trades := s.trades ++ [⟨i, TradeType.sell, price, 0, cash, portfolio_value⟩] }
    else if 0 < s.holdings then
      let price_change := (price - s.entry_price) / s.entry_price
      if price_change ≤ -stop_loss then
        let cash := s.holdings * price * (1 - fee_rate)
        { s with
          cash := cash
          holdings := 0
          trades := s.trades ++ [⟨i, TradeType.stopLoss, price, 0, cash, portfolio_value⟩] }
      else if take_profit ≤ price_change then
        let cash := s.holdings * price * (1 - fee_rate)
        { s with
          cash := cash
          holdings := 0
          trades := s.trades ++ [⟨i, TradeType.takeProfit, price, 0, cash, portfolio_value⟩] }
      else s
    else s
  { s1 with portfolio_values := s1.portfolio_values ++ [portfolio_value] }

/-- The state before the first loop iteration:
`cash = initial_cash; holdings = 0; trades = []; entry_price = 0`. -/
def initState (initial_cash : ℚ) : SimState :=
  ⟨initial_cash, 0, 0, [], []⟩

/-- The loop of `simulate_trading`, started at bar index `i` in state
`s`, over the remaining `(price, signal)` rows. -/
def simFrom (fee_rate stop_loss take_profit : ℚ) :
    ℕ → SimState → List (ℚ × Int) → SimState
  | _, s, [] => s
  | i, s, bar :: rest =>
    simFrom fee_rate stop_loss take_profit (i + 1)
      (stepTrade fee_rate stop_loss take_profit s i bar.1 bar.2) rest

/-- Embeds `simulate_trading(df, initial_cash, fee_rate, stop_loss, take_profit)`
on the `(price, Signal)` rows of `df`, returning the final state (whose
`portfolio_values` is the added column and whose `trades` is the log). -/
def simulate_trading (data : List (ℚ × Int))
    (initial_cash fee_rate stop_loss take_profit : ℚ) : SimState :=
  simFrom fee_rate stop_loss take_profit 0 (initState initial_cash) data

/-! ## Metrics calculator (`calculate_metrics`, lines 118-124) -/

/-- Mean of a list of rationals (the empty case is never used by the
claims: pandas would return NaN there). -/
def meanQ (l : List ℚ) : ℚ := l.sum / l.length

/-- Sample variance with the pandas default `ddof = 1` (the square of
`Series.std()`); junk on lists of length `≤ 1`, where pandas gives NaN. -/
def varQ (l : List ℚ) : ℚ :=
  (l.map (fun x => (x - meanQ l) ^ 2)).sum / ((l.length : ℚ) - 1)

/-- Embeds `df["portfolio_value"].pct_change().dropna()`: the fractional change
between consecutive values, the undefined first entry dropped. -/
def pct_change (values : List ℚ) : List ℚ :=
  (List.range (values.length - 1)).map
    (fun i => (values.getD (i + 1) 0 - values.getD i 0) / values.getD i 0)

/-- Embeds `annualized_return = returns.mean() * 252 * 100` (a percentage; the
factor 252 is written into the body of `calculate_metrics`). -/
def annualized_return (values : List ℚ) : ℚ :=
  meanQ (pct_change values) * 252 * 100

/-- The square of `annualized_volatility = returns.std() * sqrt(252) * 100`;
the volatility itself is an irrational square root in general, and every
use in the claims factors through its square or its vanishing. -/
def annualized_volatility_sq (values : List ℚ) : ℚ :=
  varQ (pct_change values) * 252 * 10000

/-- Embeds `sharpe_ratio = annualized_return / annualized_volatility if
annualized_volatility != 0 else 0`, as a function of the two already
computed metric values. -/
def sharpe (ar av : ℚ) : ℚ :=
  if av ≠ 0 then ar / av else 0

/-- Running maximum helper: `cummaxAux m xs` is the tail of the running
maximum of `m :: xs`. -/
def cummaxAux (m : ℚ) : List ℚ → List ℚ
  | [] => []
  | x :: xs => max m x :: cummaxAux (max m x) xs

/-- Embeds `df["portfolio_value"].cummax()`: the running maximum of the series. -/
def cummax : List ℚ → List ℚ
  | [] => []
  | x :: xs => x :: cummaxAux x xs

/-- Embeds `Series.max()` of a list: junk `0` on the empty list (pandas: NaN). -/
def listMax : List ℚ → ℚ
  | [] => 0
  | x :: xs => xs.foldl max x

/-- The per-bar drawdown series
`(cummax - portfolio_value) / cummax` of `calculate_metrics`. -/
def drawdowns (values : List ℚ) : List ℚ :=
  ((cummax values).zip values).map (fun p => (p.1 - p.2) / p.1)

/-- Embeds `max_drawdown = ((cummax - value) / cummax).max() * 100`. -/
def max_drawdown (values : List ℚ) : ℚ :=
  listMax (drawdowns values) * 100

/-- The tuple returned by `calculate_metrics(df, initial_cash)`; the
volatility is carried by its square, and the Sharpe ratio is the
function `sharpe` of the first two fields, so the record determines all
four reported numbers.  The `initial_cash` argument is bound by the
Python signature but never read in the body. -/
structure MetricsReport where
  annualized_return : ℚ
  annualized_volatility_sq : ℚ
  max_drawdown : ℚ
deriving DecidableEq

/-- Embeds `calculate_metrics(df, initial_cash)` on the portfolio-value column. -/
def calculate_metrics (values : List ℚ) (initial_cash : ℚ) : MetricsReport :=
  ⟨annualized_return values, annualized_volatility_sq values, max_drawdown values⟩

/-! ## Spec-side formulations used for comparison -/

/-- The running peak demanded by the spec: the maximum of the series up
to and including index `i`. -/
def peakAt (values : List ℚ) (i : ℕ) : ℚ :=
  listMax (values.take (i + 1))

/-- The spec's drawdown formula: the maximum over all bars of
`(running_peak - value) / running_peak` (a fraction, not a percentage). -/
def spec_mdd (values : List ℚ) : ℚ :=
  listMax ((List.range values.length).map
    (fun i => (peakAt values i - values.getD i 0) / peakAt values i))

/-- The spec's annualized return: mean periodic return times an explicit
`trading_periods_per_year` parameter. -/
def annualized_return_spec (values : List ℚ) (trading_periods_per_year : ℚ) : ℚ :=
  meanQ (pct_change values) * trading_periods_per_year

/-! ## Claim C9: `calculate_metrics` never reads `initial_cash` -/

/-- Claim C9: the metrics computation is independent of its
`initial_cash` argument: for every portfolio-value series and every two
values of `initial_cash`, `calculate_metrics` returns identical
annualized return, volatility (hence also its square root scaled into
the annualized volatility), Sharpe ratio (a function of the previous
two via `sharpe`) and maximum drawdown. -/
theorem C9_metrics_independent_of_initial_cash (values : List ℚ) (c1 c2 : ℚ) :
    calculate_metrics values c1 = calculate_metrics values c2 := rfl

/-! ## Claim C8: the Sharpe-ratio division is guarded -/

/-- Claim C8: the Sharpe ratio equals `annualized_return /
annualized_volatility` whenever the volatility is nonzero, and equals 0
when the volatility is 0; the division is guarded, so no
division-by-zero path exists. -/
theorem C8_sharpe_guarded (ar av : ℚ) :
    (av ≠ 0 → sharpe ar av = ar / av) ∧ (av = 0 → sharpe ar av = 0) := by
  constructor <;> intro h <;> simp [sharpe, h]

/-- Witness for C8 at the concrete inputs `(6, 2)` and `(5, 0)`. -/
theorem C8_witness : sharpe 6 2 = 3 ∧ sharpe 5 0 = 0 := by
  constructor
  · rw [(C8_sharpe_guarded 6 2).1 (by norm_num)]
    norm_num
  · exact (C8_sharpe_guarded 5 0).2 rfl

/-! ## Claim C3: the annualization factor is hardcoded -/

/-- Counterexample to claim C3: on the series `[1, 2]` the code's
annualized return is `25200` (mean periodic return `1`, times the
hardcoded `252`, times `100` for a percentage), which differs from the
claimed `mean * trading_periods_per_year` at the spec's example
parameter value `252`. -/
theorem C3_counterexample :
    annualized_return [1, 2] ≠ annualized_return_spec [1, 2] 252 := by
  norm_num [annualized_return, annualized_return_spec, meanQ, pct_change, List.range_succ]

/-- Claim C3 amended: `calculate_metrics` takes no
`trading_periods_per_year` argument; the annualization factor is
hardcoded, and the reported annualized return is `mean(periodic
returns) * 252 * 100`: whenever the mean periodic return is nonzero,
`mean * p` reproduces the code's value exactly for `p = 25200` and for
no other factor. -/
theorem C3_annualization_hardcoded (values : List ℚ) (p : ℚ)
    (hm : meanQ (pct_change values) ≠ 0) :
    annualized_return values = annualized_return_spec values p ↔ p = 25200 := by
  unfold annualized_return annualized_return_spec
  rw [mul_assoc]
  constructor
  · intro h
    have h2 : (25200 : ℚ) = p := mul_left_cancel₀ hm (by linarith [h])
    exact h2.symm
  · rintro rfl
    norm_num

/-- Witness for C3 on the series `[1, 2]` (mean periodic return `1`)
and the factor `25200`. -/
theorem C3_witness :
    annualized_return [1, 2] = annualized_return_spec [1, 2] 25200 ↔ (25200 : ℚ) = 25200 :=
  C3_annualization_hardcoded [1, 2] 25200
    (by norm_num [meanQ, pct_change, List.range_succ])

/-! ## Claim C1: exit priority when LONG -/

/-- Counterexample to claim C1: enter LONG at price 100, then at price
80 the loss is `-20% ≤ -stop_loss_pct = -10%` while a Sell signal is
present; the `elif` chain of `simulate_trading` tests the Sell signal
before the stop-loss, so the recorded exit is a Sell, not a StopLoss. -/
theorem C1_counterexample :
    ((80 : ℚ) - 100) / 100 ≤ -(1 / 10) ∧
    (simulate_trading [(100, 1), (80, -1)] 10000 0 (1 / 10) (1 / 5)).trades.map Trade.type
      = [TradeType.buy, TradeType.sell] := by
  constructor
  · norm_num
  · norm_num [simulate_trading, simFrom, stepTrade, initState]

/-- Claim C1 amended: on a LONG bar (positive holdings, cash 0) the
signal-driven Sell exit is evaluated *before* the forced exits: a Sell
signal always records a Sell trade, whatever the loss or gain; the
StopLoss record fires only when the signal is not Sell and
`pct ≤ -stop_loss`, and the TakeProfit record fires only when the
signal is not Sell, `pct > -stop_loss` and `pct ≥ take_profit`. -/
theorem C1_sell_signal_preempts_forced_exits
    (f sl tp : ℚ) (s : SimState) (i : ℕ) (price : ℚ) (sig : Int)
    (hlong : 0 < s.holdings) (hcash : s.cash = 0) :
    (sig = -1 →
      (stepTrade f sl tp s i price sig).trades = s.trades ++
        [⟨i, TradeType.sell, price, 0, s.holdings * price * (1 - f),
          s.cash + s.holdings * price⟩]) ∧
    (sig ≠ -1 → (price - s.entry_price) / s.entry_price ≤ -sl →
      (stepTrade f sl tp s i price sig).trades = s.trades ++
        [⟨i, TradeType.stopLoss, price, 0, s.holdings * price * (1 - f),
          s.cash + s.holdings * price⟩]) ∧
    (sig ≠ -1 → ¬((price - s.entry_price) / s.entry_price ≤ -sl) →
      tp ≤ (price - s.entry_price) / s.entry_price →
      (stepTrade f sl tp s i price sig).trades = s.trades ++
        [⟨i, TradeType.takeProfit, price, 0, s.holdings * price * (1 - f),
          s.cash + s.holdings * price⟩]) := by
  have hnotbuy : ¬(sig = 1 ∧ 0 < s.cash) := by
    rintro ⟨-, hpos⟩
    rw [hcash] at hpos
    exact lt_irrefl 0 hpos
  refine ⟨?_, ?_, ?_⟩
  · intro hsig
    simp [stepTrade, hnotbuy, hsig, hlong]
  · intro hsig hsl
    simp [stepTrade, hnotbuy, hsig, hlong, hsl]
  · intro hsig hsl htp
    simp [stepTrade, hnotbuy, hsig, hlong, hsl, htp]

/-- Witness for C1 amended: a LONG state with 100 units entered at 100,
bar price 80 and a Sell signal records a Sell trade. -/
theorem C1_witness :
    (stepTrade 0 (1 / 10) (1 / 5) ⟨0, 100, 100, [], []⟩ 7 80 (-1)).trades =
      [] ++ [⟨7, TradeType.sell, 80, 0, 100 * 80 * (1 - 0), 0 + 100 * 80⟩] :=
  (C1_sell_signal_preempts_forced_exits 0 (1 / 10) (1 / 5)
    ⟨0, 100, 100, [], []⟩ 7 80 (-1) (by norm_num) rfl).1 rfl

/-! ## Claim C4: degenerate price series -/

/-- Counterexample to claim C4: a single-bar series whose one signal is
Buy records one (opening) trade, not zero. -/
theorem C4_counterexample :
    (simulate_trading [(100, 1)] 10000 (1 / 1000) (1 / 10) (1 / 5)).trades.length = 1 := by
  norm_num [simulate_trading, simFrom, stepTrade, initState]

/-- Claim C4 amended: an empty price series produces empty outputs and
zero trades; a single-bar series produces no closing trade — every
trade it can record is an opening Buy (and one is recorded exactly when
the single signal is Buy and cash is positive). -/
theorem C4_empty_and_single_bar :
    (∀ c f sl tp : ℚ, (simulate_trading [] c f sl tp).trades = [] ∧
      (simulate_trading [] c f sl tp).portfolio_values = []) ∧
    (∀ (p : ℚ) (sig : Int) (c f sl tp : ℚ),
      ∀ t ∈ (simulate_trading [(p, sig)] c f sl tp).trades, t.type = TradeType.buy) := by
  constructor
  · intro c f sl tp
    exact ⟨rfl, rfl⟩
  · intro p sig c f sl tp t ht
    simp only [simulate_trading, simFrom, stepTrade, initState] at ht
    norm_num at ht
    by_cases h : sig = 1 ∧ 0 < c
    · rw [if_pos h] at ht
      simp at ht
      rw [ht]
    · rw [if_neg h] at ht
      simp at ht

/-- Witness for C4: the empty series at concrete parameters, and the
Buy trade recorded by the single-bar series `[(100, 1)]` with fee 0. -/
theorem C4_witness :
    (simulate_trading [] (5 : ℚ) 0 0 0).trades = [] ∧
    (Trade.mk 0 TradeType.buy 100 100 0 10000).type = TradeType.buy := by
  constructor
  · exact (C4_empty_and_single_bar.1 5 0 0 0).1
  · exact C4_empty_and_single_bar.2 100 1 10000 0 0 0
      (Trade.mk 0 TradeType.buy 100 100 0 10000)
      (by norm_num [simulate_trading, simFrom, stepTrade, initState])

/-! ## Claim C2: RSI under zero average loss -/

/-- Counterexample to claim C2: on the constant series
`[100, 100, 100]` with period 2, the trailing average loss at index 2
is zero, yet the computed RSI is NaN (`0 / 0` in `rs = gain / loss`),
not 100. -/
theorem C2_counterexample :
    avg_loss [100, 100, 100] 2 2 = some 0 ∧
    rsi [100, 100, 100] 2 2 = FVal.nan ∧ FVal.nan ≠ FVal.num 100 := by
  refine ⟨?_, ?_, by simp⟩
  · norm_num [avg_loss, lossAt, deltaAt, List.range_succ]
  · norm_num [rsi, avg_gain, avg_loss, gainAt, lossAt, deltaAt, fdiv, rsiFromRS,
      List.range_succ]

/-- On a constant series the price difference at any in-range index is
zero. -/
lemma deltaAt_replicate (n : ℕ) (c : ℚ) (j : ℕ) (h : j < n) :
    deltaAt (List.replicate n c) j = 0 := by
  unfold deltaAt
  rw [List.getD_eq_getElem _ _ (by simpa using h),
    List.getD_eq_getElem _ _ (by simp; omega)]
  simp [List.getElem_replicate]

/-- On a constant series the trailing average gain is zero wherever it
is available. -/
lemma avg_gain_replicate (n : ℕ) (c : ℚ) (period i : ℕ) :
    avg_gain (List.replicate n c) period i =
      if 1 ≤ period ∧ period ≤ i + 1 ∧ i < n then some 0 else none := by
  unfold avg_gain
  rw [List.length_replicate]
  split_ifs with h
  · have hz : ∀ x ∈ (List.range period).map
        (fun k => gainAt (List.replicate n c) (i - k)), x = 0 := by
      intro x hx
      obtain ⟨k, hk, rfl⟩ := List.mem_map.1 hx
      unfold gainAt
      split_ifs with h0
      · rfl
      · rw [deltaAt_replicate n c _ (by omega)]
        simp
    rw [List.sum_eq_zero hz]
    simp
  · rfl

/-- On a constant series the trailing average loss is zero wherever it
is available. -/
lemma avg_loss_replicate (n : ℕ) (c : ℚ) (period i : ℕ) :
    avg_loss (List.replicate n c) period i =
      if 1 ≤ period ∧ period ≤ i + 1 ∧ i < n then some 0 else none := by
  unfold avg_loss
  rw [List.length_replicate]
  split_ifs with h
  · have hz : ∀ x ∈ (List.range period).map
        (fun k => lossAt (List.replicate n c) (i - k)), x = 0 := by
      intro x hx
      obtain ⟨k, hk, rfl⟩ := List.mem_map.1 hx
      unfold lossAt
      split_ifs with h0
      · rfl
      · rw [deltaAt_replicate n c _ (by omega)]
        simp
    rw [List.sum_eq_zero hz]
    simp
  · rfl

/-- Claim C2 amended: where the trailing average loss is zero the RSI
is 100 only if the trailing average gain is positive; when the average
gain is zero as well (as on every constant price series, at every
index) the division `0 / 0` makes the RSI NaN, i.e. unavailable rather
than 100.  The averages, and with them the RSI, are available from
index `period - 1` on, the `where`-substituted zero at index 0 counting
as a window term. -/
theorem C2_rsi_zero_loss_policy :
    (∀ (prices : List ℚ) (period i : ℕ) (g : ℚ),
      avg_gain prices period i = some g → avg_loss prices period i = some 0 →
      ((0 < g → rsi prices period i = FVal.num 100) ∧
       (g = 0 → rsi prices period i = FVal.nan))) ∧
    (∀ (c : ℚ) (n period i : ℕ), rsi (List.replicate n c) period i = FVal.nan) := by
  constructor
  · intro prices period i g hg hl
    rw [rsi, hg, hl]
    constructor
    · intro hpos
      simp [rsiFromRS, fdiv, hpos]
    · rintro rfl
      simp [rsiFromRS, fdiv]
  · intro c n period i
    rw [rsi, avg_gain_replicate, avg_loss_replicate]
    split_ifs with h
    · simp [rsiFromRS, fdiv]
    · rfl

/-- Witness for C2 amended, exercising the first available index
`period - 1`: on `[10, 11, 12]` with period 2, at index 1 the window is
the substituted zero at index 0 plus the gain 1, so the average gain is
`1/2 > 0` while the average loss is zero, and the RSI is 100; on the
constant series `replicate 3 5` with period 1 the RSI at index 1 is
NaN. -/
theorem C2_witness :
    rsi [10, 11, 12] 2 1 = FVal.num 100 ∧
    rsi (List.replicate 3 5) 1 1 = FVal.nan := by
  constructor
  · exact (C2_rsi_zero_loss_policy.1 [10, 11, 12] 2 1 (1 / 2)
      (by norm_num [avg_gain, gainAt, deltaAt, List.range_succ])
      (by norm_num [avg_loss, lossAt, deltaAt, List.range_succ])).1 (by norm_num)
  · exact C2_rsi_zero_loss_policy.2 5 3 1 1

/-! ## Claim C6: the fully-invested-or-flat invariant -/

/-- The simulator state invariant: nonnegative cash and holdings, and
at least one of them zero. -/
def InvState (s : SimState) : Prop :=
  0 ≤ s.cash ∧ 0 ≤ s.holdings ∧ (s.cash = 0 ∨ s.holdings = 0)

/-- One bar of the simulation preserves the invariant, for a fee rate
in `[0, 1]` and a positive bar price. -/
lemma stepTrade_inv {f sl tp : ℚ} {s : SimState} {i : ℕ} {price : ℚ} {sig : Int}
    (hs : InvState s) (hf0 : 0 ≤ f) (hf1 : f ≤ 1) (hp : 0 < price) :
    InvState (stepTrade f sl tp s i price sig) := by
  obtain ⟨hc, hh, hch⟩ := hs
  unfold stepTrade InvState
  dsimp only
  split_ifs with h1 h2 h3 h4 h5
  · exact ⟨le_refl 0, mul_nonneg (div_nonneg hc hp.le) (by linarith), Or.inl rfl⟩
  · exact ⟨mul_nonneg (mul_nonneg hh hp.le) (by linarith), le_refl 0, Or.inr rfl⟩
  · exact ⟨mul_nonneg (mul_nonneg hh hp.le) (by linarith), le_refl 0, Or.inr rfl⟩
  · exact ⟨mul_nonneg (mul_nonneg hh hp.le) (by linarith), le_refl 0, Or.inr rfl⟩
  · exact ⟨hc, hh, hch⟩
  · exact ⟨hc, hh, hch⟩

/-- The simulation loop preserves the invariant along any suffix of
bars with positive prices. -/
lemma simFrom_inv {f sl tp : ℚ} (data : List (ℚ × Int)) :
    ∀ (i : ℕ) (s : SimState), InvState s → 0 ≤ f → f ≤ 1 →
    (∀ b ∈ data, 0 < b.1) → InvState (simFrom f sl tp i s data) := by
  induction data with
  | nil => intro i s hs _ _ _; exact hs
  | cons bar rest ih =>
    intro i s hs hf0 hf1 hp
    exact ih (i + 1) _
      (stepTrade_inv hs hf0 hf1 (hp bar (List.mem_cons_self bar rest)))
      hf0 hf1 (fun b hb => hp b (List.mem_cons_of_mem bar hb))

/-- Claim C6: for every input with `initial_cash ≥ 0`,
`0 ≤ fee_rate ≤ 1` and positive prices, after every processed bar the
state satisfies `cash ≥ 0`, `holdings ≥ 0`, and cash and holdings are
never both positive (fully invested or flat). -/
theorem C6_invariant (data : List (ℚ × Int)) (c f sl tp : ℚ) (n : ℕ)
    (hc : 0 ≤ c) (hf0 : 0 ≤ f) (hf1 : f ≤ 1) (hp : ∀ b ∈ data, 0 < b.1) :
    0 ≤ (simulate_trading (data.take n) c f sl tp).cash ∧
    0 ≤ (simulate_trading (data.take n) c f sl tp).holdings ∧
    ¬(0 < (simulate_trading (data.take n) c f sl tp).cash ∧
      0 < (simulate_trading (data.take n) c f sl tp).holdings) := by
  have h : InvState (simFrom f sl tp 0 (initState c) (data.take n)) :=
    simFrom_inv (data.take n) 0 (initState c)
      ⟨hc, le_refl 0, Or.inr rfl⟩ hf0 hf1
      (fun b hb => hp b (List.take_subset n data hb))
  obtain ⟨h1, h2, h3⟩ := h
  refine ⟨h1, h2, ?_⟩
  rintro ⟨hpos1, hpos2⟩
  unfold simulate_trading at hpos1 hpos2
  rcases h3 with h | h
  · rw [h] at hpos1
    exact lt_irrefl 0 hpos1
  · rw [h] at hpos2
    exact lt_irrefl 0 hpos2

/-- Witness for C6: the concrete run `[(100, 1)]`, initial cash 1,
fee 0, after one bar. -/
theorem C6_witness :
    0 ≤ (simulate_trading (List.take 1 [((100 : ℚ), (1 : Int))]) 1 0 0 0).cash ∧
    0 ≤ (simulate_trading (List.take 1 [((100 : ℚ), (1 : Int))]) 1 0 0 0).holdings ∧
    ¬(0 < (simulate_trading (List.take 1 [((100 : ℚ), (1 : Int))]) 1 0 0 0).cash ∧
      0 < (simulate_trading (List.take 1 [((100 : ℚ), (1 : Int))]) 1 0 0 0).holdings) :=
  C6_invariant [((100 : ℚ), (1 : Int))] 1 0 0 0 1 (by norm_num) (by norm_num) (by norm_num)
    (by intro b hb; rw [List.mem_singleton] at hb; rw [hb]; norm_num)

/-! ## Claim C10: trade records store the pre-trade portfolio value -/

/-- Unrolling the simulation loop from the right: processing `l ++ [x]`
is processing `l`, then one step on `x` at index `i + l.length`. -/
lemma simFrom_append (f sl tp : ℚ) (l : List (ℚ × Int)) :
    ∀ (i : ℕ) (s : SimState) (x : ℚ × Int),
    simFrom f sl tp i s (l ++ [x]) =
      stepTrade f sl tp (simFrom f sl tp i s l) (i + l.length) x.1 x.2 := by
  induction l with
  | nil => intro i s x; simp [simFrom]
  | cons b rest ih =>
    intro i s x
    simp only [List.cons_append, simFrom, List.append_eq]
    rw [ih]
    have hlen : i + 1 + rest.length = i + (b :: rest).length := by
      simp [List.length_cons]
      omega
    rw [hlen]

/-- The state after `n + 1` bars is one `stepTrade` applied to the
state after `n` bars, at bar `n`. -/
lemma simulate_take_succ (data : List (ℚ × Int)) (c f sl tp : ℚ) (n : ℕ)
    (hn : n < data.length) :
    simulate_trading (data.take (n + 1)) c f sl tp =
      stepTrade f sl tp (simulate_trading (data.take n) c f sl tp) n
        (data[n]).1 (data[n]).2 := by
  unfold simulate_trading
  rw [List.take_succ, List.getElem?_eq_getElem hn]
  simp only [Option.toList_some]
  have hlen : (List.take n data).length = n := by
    rw [List.length_take]
    omega
  rw [simFrom_append, hlen]
  norm_num

/-- Claim C10: every trade record appended at bar `n` stores as its
`portfolio_value` the pre-trade value of that bar (cash plus holdings
times price, from the state before the bar's trade executes); with a
positive fee rate, a Buy or Sell record's stored `portfolio_value`
therefore differs from the post-trade value recoverable from the
record's own `cash`, `holdings` and `price` fields. -/
theorem C10_pretrade_portfolio_value (data : List (ℚ × Int)) (c f sl tp : ℚ) (n : ℕ)
    (hn : n < data.length) (hc : 0 ≤ c) (hf0 : 0 < f) (hf1 : f ≤ 1)
    (hp : ∀ b ∈ data, 0 < b.1) (t : Trade)
    (ht : t ∈ (simulate_trading (data.take (n + 1)) c f sl tp).trades) :
    t ∈ (simulate_trading (data.take n) c f sl tp).trades ∨
    (t.portfolio_value = (simulate_trading (data.take n) c f sl tp).cash +
        (simulate_trading (data.take n) c f sl tp).holdings * (data[n]).1 ∧
      ((t.type = TradeType.buy ∨ t.type = TradeType.sell) →
        t.portfolio_value ≠ t.cash + t.holdings * t.price)) := by
  have hInv : InvState (simulate_trading (data.take n) c f sl tp) := by
    unfold simulate_trading
    exact simFrom_inv _ _ _ ⟨hc, le_refl 0, Or.inr rfl⟩ hf0.le hf1
      (fun b hb => hp b (List.take_subset n data hb))
  have hprice : 0 < (data[n]).1 := hp _ (data.getElem_mem hn)
  set s0 := simulate_trading (data.take n) c f sl tp with hs0
  rw [simulate_take_succ data c f sl tp n hn] at ht
  set p := (data[n]).1 with hpdef
  simp only [stepTrade] at ht
  split_ifs at ht with h1 h2 h3 h4 h5
  · -- Buy branch
    rcases List.mem_append.1 ht with hmem | hmem
    · exact Or.inl hmem
    · have hteq := List.mem_singleton.1 hmem
      subst hteq
      refine Or.inr ⟨rfl, fun _ => ?_⟩
      have hh0 : s0.holdings = 0 := by
        rcases hInv.2.2 with hcz | hhz
        · rw [hcz] at h1
          exact absurd h1.2 (lt_irrefl 0)
        · exact hhz
      dsimp only
      rw [hh0, zero_mul, add_zero, zero_add]
      have key : s0.cash / p * (1 - f) * p = s0.cash * (1 - f) := by
        field_simp
      rw [key]
      intro heq
      have hexp : s0.cash * (1 - f) = s0.cash - s0.cash * f := by ring
      have hcf : 0 < s0.cash * f := mul_pos h1.2 hf0
      rw [hexp] at heq
      linarith
  · -- Sell branch
    rcases List.mem_append.1 ht with hmem | hmem
    · exact Or.inl hmem
    · have hteq := List.mem_singleton.1 hmem
      subst hteq
      refine Or.inr ⟨rfl, fun _ => ?_⟩
      have hc0 : s0.cash = 0 := by
        rcases hInv.2.2 with hcz | hhz
        · exact hcz
        · rw [hhz] at h2
          exact absurd h2.2 (lt_irrefl 0)
      dsimp only
      rw [hc0, zero_add, zero_mul, add_zero]
      intro heq
      have hhf : 0 < s0.holdings * p * f := mul_pos (mul_pos h2.2 hprice) hf0
      nlinarith
  · -- StopLoss branch
    rcases List.mem_append.1 ht with hmem | hmem
    · exact Or.inl hmem
    · have hteq := List.mem_singleton.1 hmem
      subst hteq
      refine Or.inr ⟨rfl, fun hty => ?_⟩
      simp at hty
  · -- TakeProfit branch
    rcases List.mem_append.1 ht with hmem | hmem
    · exact Or.inl hmem
    · have hteq := List.mem_singleton.1 hmem
      subst hteq
      refine Or.inr ⟨rfl, fun hty => ?_⟩
      simp at hty
  · exact Or.inl ht
  · exact Or.inl ht

/-- Witness for C10: the Buy recorded on the run `[(100, 1)]` with
initial cash 10000 and fee rate 1/100 stores the pre-trade value 10000,
not the post-trade value `99 * 100 = 9900`. -/
theorem C10_witness :
    Trade.mk 0 TradeType.buy 100 99 0 10000 ∈
      (simulate_trading (List.take 0 [((100 : ℚ), (1 : Int))]) 10000 (1/100) (1/10) (1/5)).trades ∨
    ((Trade.mk 0 TradeType.buy 100 99 0 10000).portfolio_value =
        (simulate_trading (List.take 0 [((100 : ℚ), (1 : Int))]) 10000 (1/100) (1/10) (1/5)).cash +
          (simulate_trading (List.take 0 [((100 : ℚ), (1 : Int))]) 10000 (1/100) (1/10) (1/5)).holdings *
            ([((100 : ℚ), (1 : Int))][0]).1 ∧
      (((Trade.mk 0 TradeType.buy 100 99 0 10000).type = TradeType.buy ∨
          (Trade.mk 0 TradeType.buy 100 99 0 10000).type = TradeType.sell) →
        (Trade.mk 0 TradeType.buy 100 99 0 10000).portfolio_value ≠
          (Trade.mk 0 TradeType.buy 100 99 0 10000).cash +
            (Trade.mk 0 TradeType.buy 100 99 0 10000).holdings *
              (Trade.mk 0 TradeType.buy 100 99 0 10000).price)) :=
  C10_pretrade_portfolio_value [((100 : ℚ), (1 : Int))] 10000 (1/100) (1/10) (1/5) 0
    (by norm_num) (by norm_num) (by norm_num) (by norm_num)
    (by intro b hb; rw [List.mem_singleton] at hb; rw [hb]; norm_num)
    (Trade.mk 0 TradeType.buy 100 99 0 10000)
    (by norm_num [simulate_trading, simFrom, stepTrade, initState])

/-! ## Claim C7: maximum drawdown -/

/-- Folding `max` commutes with an outer `max` over the seed. -/
lemma foldl_max_max (l : List ℚ) (a b : ℚ) :
    max b (l.foldl max a) = l.foldl max (max b a) := by
  induction l generalizing a with
  | nil => rfl
  | cons x t ih => simpa [List.foldl, max_assoc] using ih (max a x)

/-- Joining a seed by `max` with the maximum of a nonempty list is a fold. -/
lemma max_listMax_nonempty (x : ℚ) (t : List ℚ) (ht : t ≠ []) :
    max x (listMax t) = t.foldl max x := by
  cases t with
  | nil => exact absurd rfl ht
  | cons z zs =>
    show max x (zs.foldl max z) = (z :: zs).foldl max x
    rw [foldl_max_max]
    rfl

/-- The helper `cummaxAux` preserves length. -/
lemma cummaxAux_length (m : ℚ) (l : List ℚ) : (cummaxAux m l).length = l.length := by
  induction l generalizing m with
  | nil => rfl
  | cons x t ih => simp [cummaxAux, ih]

/-- The running maximum `cummax` preserves length. -/
lemma cummax_length (l : List ℚ) : (cummax l).length = l.length := by
  cases l with
  | nil => rfl
  | cons x t => simp [cummax, cummaxAux_length]

/-- The tail of a running maximum, elementwise: the seed joined with the
maximum of the prefix. -/
lemma cummaxAux_getElem (xs : List ℚ) :
    ∀ (m : ℚ) (i : ℕ) (h : i < (cummaxAux m xs).length),
    (cummaxAux m xs)[i] = max m (listMax (xs.take (i + 1))) := by
  induction xs with
  | nil => intro m i h; rw [cummaxAux] at h; exact absurd h (by simp)
  | cons y ys ih =>
    intro m i h
    cases i with
    | zero => simp [cummaxAux, listMax]
    | succ i =>
      have hys : i < ys.length := by
        rw [cummaxAux_length] at h
        simpa using h
      have hlt : i < (cummaxAux (max m y) ys).length := by
        rw [cummaxAux_length]
        exact hys
      simp only [cummaxAux, List.getElem_cons_succ]
      rw [ih (max m y) i hlt, List.take_succ_cons]
      have hne : ys.take (i + 1) ≠ [] := by
        intro hnil
        have hlen := congrArg List.length hnil
        simp only [List.length_take, List.length_nil] at hlen
        omega
      rw [max_assoc, max_listMax_nonempty y _ hne]
      rfl

/-- The running maximum at index `i` is the spec's running peak: the
maximum of the series up to and including bar `i`. -/
lemma cummax_getElem (v : List ℚ) (i : ℕ) (h : i < (cummax v).length) :
    (cummax v)[i] = peakAt v i := by
  cases v with
  | nil => rw [cummax] at h; exact absurd h (by simp)
  | cons x xs =>
    cases i with
    | zero => simp [cummax, peakAt, listMax]
    | succ i =>
      have hxs : i < xs.length := by
        rw [cummax_length] at h
        simpa using h
      have hlt : i < (cummaxAux x xs).length := by
        rw [cummaxAux_length]
        exact hxs
      simp only [cummax, List.getElem_cons_succ]
      rw [cummaxAux_getElem xs x i hlt]
      unfold peakAt
      rw [List.take_succ_cons]
      have hne : xs.take (i + 1) ≠ [] := by
        intro hnil
        have hlen := congrArg List.length hnil
        simp only [List.length_take, List.length_nil] at hlen
        omega
      rw [max_listMax_nonempty x _ hne]
      rfl

/-- The drawdown series has one entry per bar. -/
lemma drawdowns_length (v : List ℚ) : (drawdowns v).length = v.length := by
  simp [drawdowns, List.length_zip, cummax_length]

/-- The code's drawdown series coincides with the spec's formula
`(running_peak - value) / running_peak` at every bar. -/
lemma drawdowns_eq_spec (v : List ℚ) :
    drawdowns v = (List.range v.length).map
      (fun i => (peakAt v i - v.getD i 0) / peakAt v i) := by
  apply List.ext_getElem
  · simp [drawdowns_length]
  · intro i h1 h2
    have hv : i < v.length := by
      rw [drawdowns_length] at h1
      exact h1
    have hz : i < ((cummax v).zip v).length := by
      simp [List.length_zip, cummax_length]
      omega
    have hcm : i < (cummax v).length := by
      rw [cummax_length]
      exact hv
    simp only [drawdowns, List.getElem_map, List.getElem_zip, List.getElem_range]
    rw [cummax_getElem v i hcm, List.getD_eq_getElem v 0 hv]

/-- A running maximum over a non-decreasing series is the series itself
(auxiliary form). -/
lemma cummaxAux_of_chain (xs : List ℚ) : ∀ m : ℚ, List.Chain (· ≤ ·) m xs →
    cummaxAux m xs = xs := by
  induction xs with
  | nil => intro m _; rfl
  | cons y ys ih =>
    intro m hch
    rcases List.chain_cons.1 hch with ⟨hmy, hch2⟩
    unfold cummaxAux
    rw [max_eq_right hmy, ih y hch2]

/-- A running maximum over a non-decreasing series is the series itself. -/
lemma cummax_of_chain (v : List ℚ) (h : List.Chain' (· ≤ ·) v) : cummax v = v := by
  cases v with
  | nil => rfl
  | cons x xs =>
    show x :: cummaxAux x xs = x :: xs
    rw [cummaxAux_of_chain xs x h]

/-- Every entry of the self-zipped drawdown form vanishes. -/
lemma zip_self_drawdown_zero (v : List ℚ) :
    ∀ x ∈ (v.zip v).map (fun p => (p.1 - p.2) / p.1), x = 0 := by
  induction v with
  | nil => intro x hx; simp at hx
  | cons a t ih =>
    intro x hx
    rw [List.zip_cons_cons, List.map_cons] at hx
    rcases List.mem_cons.1 hx with h | h
    · rw [h]
      simp
    · exact ih x h

/-- The maximum of a list of zeros is zero. -/
lemma listMax_all_zero (l : List ℚ) (h : ∀ x ∈ l, x = 0) : listMax l = 0 := by
  cases l with
  | nil => rfl
  | cons x t =>
    have hx : x = 0 := h x (List.mem_cons_self x t)
    have haux : ∀ u : List ℚ, (∀ y ∈ u, y = 0) → u.foldl max 0 = 0 := by
      intro u
      induction u with
      | nil => intro _; rfl
      | cons y ys ihy =>
        intro hu
        have hy : y = 0 := hu y (List.mem_cons_self y ys)
        simp only [List.foldl, hy, max_self]
        exact ihy (fun z hz => hu z (List.mem_cons_of_mem y hz))
    show t.foldl max x = 0
    rw [hx]
    exact haux t (fun z hz => h z (List.mem_cons_of_mem x hz))

/-- Counterexample to claim C7: on the series `[100, 50]` the code's
`max_drawdown` is `50` (a percentage), while the claimed maximum of
`(running_peak - value) / running_peak` is the fraction `1/2`. -/
theorem C7_counterexample : max_drawdown [100, 50] ≠ spec_mdd [100, 50] := by
  norm_num [max_drawdown, drawdowns, cummax, cummaxAux, listMax, spec_mdd, peakAt,
    List.range_succ]

/-- Claim C7 amended: `max_drawdown` equals `100` times the maximum over
all bars of `(running_peak - value) / running_peak` with `running_peak`
the cumulative maximum up to and including the current bar (the claimed
quantity, reported as a percentage); consequently it is `0` for every
positive non-decreasing portfolio-value series. -/
theorem C7_max_drawdown (v : List ℚ) :
    max_drawdown v = 100 * spec_mdd v ∧
    ((∀ x ∈ v, 0 < x) → List.Chain' (· ≤ ·) v → max_drawdown v = 0) := by
  constructor
  · unfold max_drawdown spec_mdd
    rw [drawdowns_eq_spec]
    ring
  · intro _ hch
    unfold max_drawdown
    have hdz : ∀ x ∈ drawdowns v, x = 0 := by
      unfold drawdowns
      rw [cummax_of_chain v hch]
      exact zip_self_drawdown_zero v
    rw [listMax_all_zero (drawdowns v) hdz]
    ring

/-- Witness for C7 on the positive, non-decreasing series `[1, 2]`. -/
theorem C7_witness :
    max_drawdown [1, 2] = 100 * spec_mdd [1, 2] ∧
    ((∀ x ∈ ([1, 2] : List ℚ), 0 < x) → List.Chain' (· ≤ ·) ([1, 2] : List ℚ) →
      max_drawdown [1, 2] = 0) :=
  C7_max_drawdown [1, 2]

/-! ## Claim C5: edge-triggered SMA crossover -/

/-- The pandas-style `<` mask is true exactly on two available values in
the strict order. -/
lemma oltB_iff (a b : Option ℚ) :
    oltB a b = true ↔ ∃ x y, a = some x ∧ b = some y ∧ x < y := by
  cases a <;> cases b <;> simp [oltB]

/-- The pandas-style `≤` mask is true exactly on two available values in
the weak order. -/
lemma oleB_iff (a b : Option ℚ) :
    oleB a b = true ↔ ∃ x y, a = some x ∧ b = some y ∧ x ≤ y := by
  cases a <;> cases b <;> simp [oleB]

/-- Claim C5: a Buy signal is emitted only on a bar where both SMAs and
their previous-bar values are available, the short SMA was `≤` the long
SMA on the prior bar, and is `>` it on the current bar; and after one
upward crossing at bar `c`, while the short SMA stays strictly above
the long SMA on the following bars, no further Buy is emitted — exactly
one Buy fires, at the crossing bar. -/
theorem C5_sma_crossover_edge_triggered :
    (∀ (prices : List ℚ) (sw lw : ℕ) (i : ℕ), signal_sma prices sw lw i = 1 →
      1 ≤ i ∧ ∃ s l sp lp : ℚ,
        sma prices sw i = some s ∧ sma prices lw i = some l ∧
        sma prices sw (i - 1) = some sp ∧ sma prices lw (i - 1) = some lp ∧
        l < s ∧ sp ≤ lp) ∧
    (∀ (prices : List ℚ) (sw lw c k : ℕ) (s l sp lp : ℚ),
      sma prices sw c = some s → sma prices lw c = some l →
      shiftSma prices sw c = some sp → shiftSma prices lw c = some lp →
      sp ≤ lp → l < s →
      (∀ j, c < j → j < c + k → ∃ sj lj : ℚ,
        sma prices sw j = some sj ∧ sma prices lw j = some lj ∧ lj < sj) →
      signal_sma prices sw lw c = 1 ∧
      ∀ j, c < j → j < c + k → signal_sma prices sw lw j ≠ 1) := by
  constructor
  · intro prices sw lw i h
    unfold signal_sma at h
    split_ifs at h with h1 h2
    · rw [Bool.and_eq_true] at h2
      obtain ⟨hb1, hb2⟩ := h2
      rw [oltB_iff] at hb1
      obtain ⟨l, s, hl, hs, hls⟩ := hb1
      rw [oleB_iff] at hb2
      obtain ⟨sp, lp, hsp, hlp, hsplp⟩ := hb2
      cases i with
      | zero => exact absurd hsp (by simp [shiftSma])
      | succ j =>
        refine ⟨by omega, s, l, sp, lp, hs, hl, ?_, ?_, hls, hsplp⟩
        · simpa [shiftSma] using hsp
        · simpa [shiftSma] using hlp
    · exact absurd h (by decide)
  · intro prices sw lw c k s l sp lp hs hl hsp hlp hsplp hls hpersist
    have hsell1 : oltB (sma prices sw c) (sma prices lw c) = false := by
      rw [hs, hl]
      simp only [oltB, decide_eq_false_iff_not, not_lt]
      exact hls.le
    have hbuy : (oltB (sma prices lw c) (sma prices sw c) &&
        oleB (shiftSma prices sw c) (shiftSma prices lw c)) = true := by
      rw [Bool.and_eq_true]
      exact ⟨(oltB_iff _ _).2 ⟨l, s, hl, hs, hls⟩,
        (oleB_iff _ _).2 ⟨sp, lp, hsp, hlp, hsplp⟩⟩
    constructor
    · unfold signal_sma
      split_ifs with h1
      · rw [Bool.and_eq_true] at h1
        obtain ⟨ha, -⟩ := h1
        rw [hsell1] at ha
        exact absurd ha (by decide)
      · rfl
    · intro j hcj hjk
      unfold signal_sma
      split_ifs with h1 h2
      · decide
      · exfalso
        rw [Bool.and_eq_true] at h2
        obtain ⟨-, hb2⟩ := h2
        rw [oleB_iff] at hb2
        obtain ⟨x, y, hx, hy, hxy⟩ := hb2
        obtain ⟨m, rfl⟩ : ∃ m, j = m + 1 := ⟨j - 1, by omega⟩
        simp only [shiftSma] at hx hy
        by_cases hmc : m = c
        · subst hmc
          rw [hs] at hx
          rw [hl] at hy
          injection hx with hx
          injection hy with hy
          subst hx
          subst hy
          exact absurd hxy (not_le.2 hls)
        · obtain ⟨sj, lj, hsj, hlj, hlsj⟩ :=
            hpersist m (by omega) (by omega)
          rw [hsj] at hx
          rw [hlj] at hy
          injection hx with hx
          injection hy with hy
          subst hx
          subst hy
          exact absurd hxy (not_le.2 hlsj)
      · decide

/-- Witness for C5: on `[10, 6, 10, 14]` with windows 1 and 2 the short
SMA crosses above the long SMA at bar 2 (prior bar: `6 ≤ 8`, current:
`10 > 8`) and stays above at bar 3 (`14 > 12`); the Buy fires at bar 2
and is not repeated at bar 3. -/
theorem C5_witness :
    signal_sma [10, 6, 10, 14] 1 2 2 = 1 ∧ signal_sma [10, 6, 10, 14] 1 2 3 ≠ 1 := by
  have h := C5_sma_crossover_edge_triggered.2 [10, 6, 10, 14] 1 2 2 2 10 8 6 8
    (by norm_num [sma, List.range_succ])
    (by norm_num [sma, List.range_succ])
    (by norm_num [shiftSma, sma, List.range_succ])
    (by norm_num [shiftSma, sma, List.range_succ])
    (by norm_num) (by norm_num)
    (by
      intro j hj1 hj2
      have hj3 : j = 3 := by omega
      subst hj3
      exact ⟨14, 12, by norm_num [sma, List.range_succ],
        by norm_num [sma, List.range_succ], by norm_num⟩)
  exact ⟨h.1, h.2 3 (by omega) (by omega)⟩
